import Mathlib

/-!
Verification of the concurrent file indexer (`cpp-indexer.cpp`).

The development shallowly embeds the program's components:
  * the `SHA256` streaming hash (state, `transform`, `update`, `final`,
    `hashFile`),
  * the `JobQueue` (FIFO with a done flag, `push` / `pop` / `done`),
  * the `worker` loop producing `Record`s,
  * directory traversal (`recursive_directory_iterator` semantics over an
    abstract tree), and the `queryFind` / `queryChecksum` / `main` logic.

Machine integers are modelled as `Nat` with explicit reduction modulo
`2 ^ 32` / `2 ^ 64` at the operations where C++ unsigned arithmetic wraps.
-/

namespace Indexer

/-- Truncation to 32 bits, the behaviour of `uint32` arithmetic. -/
def u32 (x : Nat) : Nat := x % 4294967296

/-- `rotr` from the source: `(x >> n) | (x << (32 - n))` on `uint32`. -/
def rotr (x n : Nat) : Nat := (x >>> n) ||| ((x <<< (32 - n)) % 4294967296)

/-- `choose(e,f,g) = (e & f) ^ (~e & g)`; `~e` on `uint32` is `e XOR 0xffffffff`. -/
def choose (e f g : Nat) : Nat := (e &&& f) ^^^ ((e ^^^ 4294967295) &&& g)

/-- `majority(a,b,c) = (a & b) ^ (a & c) ^ (b & c)`. -/
def majority (a b c : Nat) : Nat := (a &&& b) ^^^ (a &&& c) ^^^ (b &&& c)

/-- `sig0(x) = rotr(x,7) ^ rotr(x,18) ^ (x >> 3)`. -/
def sig0 (x : Nat) : Nat := rotr x 7 ^^^ rotr x 18 ^^^ (x >>> 3)

/-- `sig1(x) = rotr(x,17) ^ rotr(x,19) ^ (x >> 10)`. -/
def sig1 (x : Nat) : Nat := rotr x 17 ^^^ rotr x 19 ^^^ (x >>> 10)

/-- `ep0(x) = rotr(x,2) ^ rotr(x,13) ^ rotr(x,22)`. -/
def ep0 (x : Nat) : Nat := rotr x 2 ^^^ rotr x 13 ^^^ rotr x 22

/-- `ep1(x) = rotr(x,6) ^ rotr(x,11) ^ rotr(x,25)`. -/
def ep1 (x : Nat) : Nat := rotr x 6 ^^^ rotr x 11 ^^^ rotr x 25

/-- The 64 round constants `k` of `SHA256::transform` (the source writes
them in hexadecimal, `0x428a2f98, 0x71374491, ...`; decimal here). -/
def kConsts : List Nat := [
  1116352408, 1899447441, 3049323471, 3921009573,
  961987163, 1508970993, 2453635748, 2870763221,
  3624381080, 310598401, 607225278, 1426881987,
  1925078388, 2162078206, 2614888103, 3248222580,
  3835390401, 4022224774, 264347078, 604807628,
  770255983, 1249150122, 1555081692, 1996064986,
  2554220882, 2821834349, 2952996808, 3210313671,
  3336571891, 3584528711, 113926993, 338241895,
  666307205, 773529912, 1294757372, 1396182291,
  1695183700, 1986661051, 2177026350, 2456956037,
  2730485921, 2820302411, 3259730800, 3345764771,
  3516065817, 3600352804, 4094571909, 275423344,
  430227734, 506948616, 659060556, 883997877,
  958139571, 1322822218, 1537002063, 1747873779,
  1955562222, 2024104815, 2227730452, 2361852424,
  2428436474, 2756734187, 3204031479, 3329325298]

/-- The eight 32-bit working words `h[0] .. h[7]`. -/
structure Hash8 where
  h0 : Nat
  h1 : Nat
  h2 : Nat
  h3 : Nat
  h4 : Nat
  h5 : Nat
  h6 : Nat
  h7 : Nat
deriving DecidableEq, Repr

/-- Word `w[i]` for `i < 16`: four chunk bytes assembled big-endian. -/
def w16 (chunk : List Nat) (i : Nat) : Nat :=
  (chunk.getD (i * 4) 0 <<< 24) ||| (chunk.getD (i * 4 + 1) 0 <<< 16) |||
    (chunk.getD (i * 4 + 2) 0 <<< 8) ||| chunk.getD (i * 4 + 3) 0

/-- The message schedule `w[0..63]` built by the two loops of `transform`. -/
def schedule (chunk : List Nat) : List Nat :=
  (List.range 64).foldl
    (fun ws i =>
      ws ++ [if i < 16 then w16 chunk i
             else u32 (sig1 (ws.getD (i - 2) 0) + ws.getD (i - 7) 0 +
                       sig0 (ws.getD (i - 15) 0) + ws.getD (i - 16) 0)])
    []

/-- One round of the 64-round compression loop; state is `(a,b,c,d,e,f,g,hh)`. -/
def roundStep (st : Nat × Nat × Nat × Nat × Nat × Nat × Nat × Nat)
    (kw : Nat × Nat) : Nat × Nat × Nat × Nat × Nat × Nat × Nat × Nat :=
  match st with
  | (a, b, c, d, e, f, g, hh) =>
    let t1 := u32 (hh + ep1 e + choose e f g + kw.1 + kw.2)
    let t2 := u32 (ep0 a + majority a b c)
    (u32 (t1 + t2), a, b, c, u32 (d + t1), e, f, g)

/-- `SHA256::transform`: reads the first 64 bytes of `chunk` (the C++ code
receives a pointer into the buffer and reads exactly 64 bytes) and updates
the eight working words. -/
def transform (chunk : List Nat) (h : Hash8) : Hash8 :=
  let ws := schedule chunk
  let fin := (kConsts.zip ws).foldl roundStep
    (h.h0, h.h1, h.h2, h.h3, h.h4, h.h5, h.h6, h.h7)
  match fin with
  | (a, b, c, d, e, f, g, hh) =>
    ⟨u32 (h.h0 + a), u32 (h.h1 + b), u32 (h.h2 + c), u32 (h.h3 + d),
     u32 (h.h4 + e), u32 (h.h5 + f), u32 (h.h6 + g), u32 (h.h7 + hh)⟩

/-- The `SHA256` object state: working words, unprocessed buffer, bit length. -/
structure SHA256 where
  h : Hash8
  buffer : List Nat
  bitlen : Nat
deriving Repr

/-- The initial working words of a fresh `SHA256` object (hexadecimal in
the source: `0x6a09e667, 0xbb67ae85, ...`; decimal here). -/
def initH : Hash8 :=
  ⟨1779033703, 3144134277, 1013904242, 2773480762,
   1359893119, 2600822924, 528734635, 1541459225⟩

/-- A fresh `SHA256` object. -/
def initState : SHA256 := ⟨initH, [], 0⟩

/-- The `while (buffer.size() >= 64)` loop of `update`, with an explicit
iteration bound: each pass consumes 64 bytes, so `buf.length` passes always
reach the exit condition. -/
def processLoop : Nat → Hash8 → List Nat → Hash8 × List Nat
  | 0, h, buf => (h, buf)
  | n + 1, h, buf =>
    if 64 ≤ buf.length then processLoop n (transform buf h) (buf.drop 64)
    else (h, buf)

/-- The `while (buffer.size() >= 64)` loop of `update`: repeatedly transform
the leading 64 bytes and erase them. -/
def processBuffer (h : Hash8) (buf : List Nat) : Hash8 × List Nat :=
  processLoop buf.length h buf

/-- `SHA256::update`: append `data` to the buffer, add to the (wrapping
`uint64`) bit length, drain full 64-byte blocks. -/
def update (s : SHA256) (data : List Nat) : SHA256 :=
  let buf := s.buffer ++ data
  let bl := (s.bitlen + data.length * 8) % 18446744073709551616
  let hb := processBuffer s.h buf
  ⟨hb.1, hb.2, bl⟩

/-- The `while (buffer.size() % 64 != 56) buffer.push_back(0)` loop of
`final`, with an explicit iteration bound: each pass adds one byte, so the
exit condition `size % 64 = 56` is reached within 64 passes. -/
def padLoop : Nat → List Nat → List Nat
  | 0, buf => buf
  | n + 1, buf =>
    if buf.length % 64 = 56 then buf else padLoop n (buf ++ [0])

/-- The `while (buffer.size() % 64 != 56) buffer.push_back(0)` loop of
`final`. -/
def padTo56 (buf : List Nat) : List Nat := padLoop 64 buf

/-- The `for (int i = 7; i >= 0; i--)` loop of `final`: the bit length as
eight bytes, most significant first. -/
def lenBytes (bitlen : Nat) : List Nat :=
  (List.range 8).map (fun j => (bitlen >>> ((7 - j) * 8)) &&& 255)

/-- One lowercase hexadecimal digit. -/
def hexChar (n : Nat) : Char :=
  if n < 10 then Char.ofNat (48 + n) else Char.ofNat (87 + n)

/-- One working word rendered as 8 zero-padded lowercase hex digits, the
effect of `std::hex << std::setw(8) << std::setfill('0')` on a `uint32`. -/
def toHex8 (x : Nat) : String :=
  String.mk ((List.range 8).map (fun j => hexChar ((x >>> ((7 - j) * 4)) &&& 15)))

/-- The output loop of `final`: all eight words, most significant word
first. -/
def render (h : Hash8) : String :=
  toHex8 h.h0 ++ toHex8 h.h1 ++ toHex8 h.h2 ++ toHex8 h.h3 ++
  toHex8 h.h4 ++ toHex8 h.h5 ++ toHex8 h.h6 ++ toHex8 h.h7

/-- `SHA256::final`: push `0x80`, zero-pad until the size is 56 mod 64,
append the bit length, run `transform` once on the buffer, render. -/
def final (s : SHA256) : String :=
  let buf := padTo56 (s.buffer ++ [128]) ++ lenBytes s.bitlen
  render (transform buf s.h)

/-- The digest the program computes for a byte stream: a fresh object,
`update` over the stream, then `final`. -/
def sha256hex (msg : List Nat) : String := final (update initState msg)

/-- The bit length of a message as an 8-byte big-endian field, written with
division and remainder as the standard prescribes. -/
def beBytes8 (n : Nat) : List Nat :=
  [n / 2 ^ 56 % 256, n / 2 ^ 48 % 256, n / 2 ^ 40 % 256, n / 2 ^ 32 % 256,
   n / 2 ^ 24 % 256, n / 2 ^ 16 % 256, n / 2 ^ 8 % 256, n % 256]

/-- The padded message prescribed by the published SHA-256 standard (and by
the spec's finalization description): the message, one `0x80` byte, the
least number of zero bytes making the length congruent to 56 mod 64, and
the message bit length as an 8-byte big-endian field. -/
def specPad (msg : List Nat) : List Nat :=
  msg ++ [128] ++ List.replicate ((120 - (msg.length + 1) % 64) % 64) 0 ++
    beBytes8 (msg.length * 8)

/-- The digest prescribed by the published SHA-256 standard: compress every
64-byte block of the padded message, then render. The compression function,
initial words and rendering are those of the source, which follow the
standard; this reference differs from `sha256hex` only in finalization,
where the standard processes every block of the padded message. -/
def spec_sha256 (msg : List Nat) : String :=
  render (processBuffer initH (specPad msg)).1

/-- One complete index entry, `struct Record`. -/
structure Record where
  filename : String
  path : String
  size : Nat
  mtime : Nat
  hash : String
deriving DecidableEq, Repr

/-- What the file system reports for one path: `none` components model the
corresponding C++ operation throwing (`file_size`, `last_write_time`) or
the stream failing to open (`ifstream` false). -/
structure FileInfo where
  size? : Option Nat
  mtime? : Option Nat
  content? : Option (List Nat)

/-- `SHA256::hashFile`: an unopenable stream yields the empty string;
otherwise the digest of the file bytes (read in chunks and fed through
`update`, which the single-`update` model reproduces since the whole
content passes through the same buffer). -/
def hashFile (fi : FileInfo) : String :=
  match fi.content? with
  | none => ""
  | some bytes => sha256hex bytes

/-- `path::filename()`: the component after the last separator, collected
by a left scan that restarts at every slash. -/
def basename (p : String) : String :=
  String.mk (p.toList.foldl (fun acc c => if c = '/' then [] else acc ++ [c]) [])

/-- The body of the worker loop for one popped path: metadata reads that
throw (`none`) are caught by `catch (...)` and produce no `Record`;
otherwise a `Record` is pushed whose `hash` is whatever `hashFile`
returned. -/
def processPath (p : String) (fi : FileInfo) : Option Record :=
  match fi.size?, fi.mtime? with
  | some sz, some mt => some ⟨basename p, p, sz, mt, hashFile fi⟩
  | _, _ => none

/-- The `JobQueue` state: the FIFO of pending paths and the `done_` flag. -/
structure JobQueue where
  q : List String
  done_ : Bool
deriving DecidableEq, Repr

/-- What one call to `JobQueue::pop` does once the wait predicate
`done_ || !q_.empty()` lets it through: an item, the closed signal, or —
when the predicate is false — the caller stays blocked on the condition
variable. -/
inductive PopResult where
  | item (p : String) (rest : JobQueue)
  | closed
  | blocked
deriving DecidableEq, Repr

/-- `JobQueue::push`: append and wake a consumer. -/
def JobQueue.push (jq : JobQueue) (p : String) : JobQueue :=
  ⟨jq.q ++ [p], jq.done_⟩

/-- `JobQueue::pop`: wait until `done_ || !q_.empty()`; then an empty queue
means the closed signal (`return false`), otherwise the front item is
removed and delivered. -/
def JobQueue.pop (jq : JobQueue) : PopResult :=
  if jq.done_ = true ∨ jq.q ≠ [] then
    match jq.q with
    | [] => .closed
    | p :: rest => .item p ⟨rest, jq.done_⟩
  else .blocked

/-- `JobQueue::done`: set `done_` and wake all consumers. -/
def JobQueue.done (jq : JobQueue) : JobQueue := ⟨jq.q, true⟩

/-- The worker loop: pop until the closed signal, process each popped path,
append the produced `Record`s in completion order. The fuel is the queue
length: with `done_` set, each successful pop removes one element. -/
def workerLoop : Nat → (String → FileInfo) → JobQueue → List Record → List Record
  | 0, _, _, acc => acc
  | n + 1, env, jq, acc =>
    match jq.pop with
    | .item p rest =>
      workerLoop n env rest
        (match processPath p (env p) with
         | some r => acc ++ [r]
         | none => acc)
    | _ => acc

/-- A worker draining an already-closed queue holding `jobs`. -/
def runWorker (env : String → FileInfo) (jobs : List String) : List Record :=
  workerLoop jobs.length env ⟨jobs, true⟩ []

/-- Successive pops of one consumer until the closed signal (or a missing
wakeup), collecting the delivered items; the fuel is the queue length. -/
def drainLoop : Nat → JobQueue → List String
  | 0, _ => []
  | n + 1, jq =>
    match jq.pop with
    | .item p rest => p :: drainLoop n rest
    | _ => []

/-- All items a consumer receives from a queue before the closed signal. -/
def drainAll (jq : JobQueue) : List String := drainLoop jq.q.length jq

/-- The sixteen lowercase hexadecimal digits. -/
def hexDigits : List Char := "0123456789abcdef".toList

/-- The file type an entry's `status()` reports after following symlinks. -/
inductive FType where
  | regular
  | directory
  | other
  | broken
deriving DecidableEq, Repr

/-- An abstract directory tree node: a regular file, a symlink with the
type its target resolves to, a special file, or a directory with a
readability flag and children. -/
inductive Node where
  | reg (name : String)
  | sym (name : String) (target : FType)
  | special (name : String)
  | dir (name : String) (readable : Bool) (children : List Node)
deriving Repr

/-- `directory_entry::is_regular_file()`: the symlink-following status is
a regular file. -/
def isRegularFile : Node → Bool
  | .reg _ => true
  | .sym _ FType.regular => true
  | .sym _ _ => false
  | .special _ => false
  | .dir _ _ _ => false

/-- The name a node contributes as its path. -/
def nodeName : Node → String
  | .reg n => n
  | .sym n _ => n
  | .special n => n
  | .dir n _ _ => n

mutual

/-- The `recursive_directory_iterator` walk of `indexDirectory`, collecting
the paths pushed to the queue: every entry whose `is_regular_file()` holds.
Directories are descended in place (symlinks never, as
`follow_directory_symlink` is not set); opening an unreadable directory
throws `filesystem_error`, which nothing in the program catches. -/
def scanNode : Node → Except String (List String)
  | .dir name readable children =>
    if readable then scanChildren children else .error name
  | n => .ok (if isRegularFile n then [nodeName n] else [])

/-- The walk over a directory's entries, in order; the first thrown error
propagates. -/
def scanChildren : List Node → Except String (List String)
  | [] => .ok []
  | c :: cs =>
    match scanNode c with
    | .error e => .error e
    | .ok xs =>
      match scanChildren cs with
      | .error e => .error e
      | .ok ys => .ok (xs ++ ys)

end

/-- `indexDirectory`: scan the tree, enqueue every regular file, drain the
queue through the worker loop. A traversal error escapes uncaught. -/
def indexDirectory (env : String → FileInfo) (root : Node) :
    Except String (List Record) :=
  match scanNode root with
  | .error e => .error e
  | .ok paths => .ok (runWorker env paths)

/-- `queryFind`: `threshold = minMB * 1024ULL * 1024ULL` in wrapping
`uint64` arithmetic; print `path size` for every record strictly above
it, in store order. -/
def queryFind (records : List Record) (minMB : Nat) : List String :=
  let threshold := minMB * 1024 * 1024 % 18446744073709551616
  (records.filter (fun r => threshold < r.size)).map
    (fun r => r.path ++ " " ++ toString r.size)

/-- The spec's `findAbove`: every record whose size strictly exceeds
`minMB * 1048576` (exact arithmetic), in store order. -/
def findAbove (records : List Record) (minMB : Nat) : List String :=
  (records.filter (fun r => minMB * 1048576 < r.size)).map
    (fun r => r.path ++ " " ++ toString r.size)

/-- `queryChecksum`: linear scan, print the first exact filename match's
hash and return; print a literal line when none matches. -/
def queryChecksum : List Record → String → List String
  | [], _ => ["File not found"]
  | r :: rs, fn => if r.filename = fn then [r.hash] else queryChecksum rs fn

/-- `std::stoull` on a CLI operand: a digit string within `uint64` range. -/
def stoull (s : String) : Except String Nat :=
  if s ≠ "" ∧ s.toList.all Char.isDigit then
    let v := s.toList.foldl (fun a c => a * 10 + (c.toNat - 48)) 0
    if v < 18446744073709551616 then .ok v else .error "stoull out of range"
  else .error "stoull invalid argument"

/-- The usage text printed before `return 1`. -/
def usage : List String :=
  ["Usage:", "  index <root> [workers]", "  find <root> <MB>",
   "  checksum <root> <filename>"]

/-- `main`: result is the exit code and the printed lines, or an error when
execution does not reach `return` (an uncaught exception, or the undefined
behaviour of reading `argv[3]` past the argument array). `argv` includes
the program name, as `argc` counts it. -/
def mainFn (argv : List String) (env : String → FileInfo) (tree : Node) :
    Except String (Nat × List String) :=
  if argv.length < 3 then .ok (1, usage)
  else
    match indexDirectory env tree with
    | .error e => .error e
    | .ok records =>
      if argv.getD 1 "" = "find" then
        match argv.get? 3 with
        | none => .error "argv[3] is past the argument array"
        | some a =>
          match stoull a with
          | .error e => .error e
          | .ok n => .ok (0, queryFind records n)
      else if argv.getD 1 "" = "checksum" then
        match argv.get? 3 with
        | none => .error "argv[3] is past the argument array"
        | some a => .ok (0, queryChecksum records a)
      else .ok (0, [])

/-! ### Helper lemmas -/

/-- The zero-padding loop, characterized: it appends exactly the number of
zeros that makes the length congruent to 56 mod 64, whenever the fuel
exceeds that number. -/
theorem padLoop_eq : ∀ (n : Nat) (buf : List Nat),
    (120 - buf.length % 64) % 64 < n →
    padLoop n buf = buf ++ List.replicate ((120 - buf.length % 64) % 64) 0 := by
  intro n
  induction n with
  | zero => intro buf h; omega
  | succ n ih =>
    intro buf h
    by_cases h56 : buf.length % 64 = 56
    · have hz : (120 - buf.length % 64) % 64 = 0 := by omega
      simp [padLoop, h56, hz]
    · have hz : (120 - buf.length % 64) % 64 =
          ((120 - (buf.length + 1) % 64) % 64) + 1 := by omega
      have ih2 := ih (buf ++ [0]) (by simp; omega)
      simp only [List.length_append, List.length_singleton] at ih2
      simp only [padLoop, if_neg h56, ih2, hz, List.replicate_succ]
      simp [List.append_assoc]

/-- `padTo56` appends exactly the zeros reaching the next 56-mod-64
boundary: the loop's 64 iterations always suffice. -/
theorem padTo56_eq (buf : List Nat) :
    padTo56 buf = buf ++ List.replicate ((120 - buf.length % 64) % 64) 0 :=
  padLoop_eq 64 buf (by omega)

/-- The byte-extraction loop of `final` produces the 8-byte big-endian
rendering of the bit length. -/
theorem lenBytes_eq_beBytes8 (n : Nat) : lenBytes n = beBytes8 n := by
  have h255 : ∀ m : Nat, m &&& 255 = m % 256 := fun m =>
    Nat.and_pow_two_sub_one_eq_mod m 8
  simp [lenBytes, beBytes8, List.range_succ, Nat.shiftRight_eq_div_pow, h255]

/-- Each rendered word is 8 characters. -/
theorem toHex8_length (x : Nat) : (toHex8 x).length = 8 := by
  simp [toHex8, String.length]

/-- The rendered digest is 64 characters. -/
theorem render_length (h : Hash8) : (render h).length = 64 := by
  simp [render, String.length_append, toHex8_length]

/-- Every digest the program renders is 64 characters. -/
theorem final_length (s : SHA256) : (final s).length = 64 := by
  simp only [final]
  exact render_length _

/-- `sha256hex` always yields a 64-character string. -/
theorem sha256hex_length (msg : List Nat) : (sha256hex msg).length = 64 :=
  final_length _

/-- `hexChar` of a nibble is a lowercase hexadecimal digit. -/
theorem hexChar_mem (n : Nat) (h : n < 16) : hexChar n ∈ hexDigits := by
  interval_cases n <;> decide

/-- All characters of a rendered word are lowercase hexadecimal digits. -/
theorem toHex8_chars (x : Nat) : ∀ c ∈ (toHex8 x).data, c ∈ hexDigits := by
  intro c hc
  simp only [toHex8, List.mem_map, List.mem_range] at hc
  obtain ⟨j, _, rfl⟩ := hc
  have h15 : ∀ m : Nat, m &&& 15 = m % 16 := fun m =>
    Nat.and_pow_two_sub_one_eq_mod m 4
  exact hexChar_mem ((x >>> ((7 - j) * 4)) &&& 15) (by rw [h15]; omega)

/-- All characters of a rendered digest are lowercase hexadecimal digits. -/
theorem render_chars (h : Hash8) :
    (render h).toList.all (fun c => hexDigits.contains c) = true := by
  simp [render, String.toList, String.data_append, List.all_append]
  exact ⟨toHex8_chars h.h0, toHex8_chars h.h1, toHex8_chars h.h2,
    toHex8_chars h.h3, toHex8_chars h.h4, toHex8_chars h.h5,
    toHex8_chars h.h6, toHex8_chars h.h7⟩

/-- Popping from a non-empty queue always delivers the front item,
whatever the `done_` flag. -/
theorem pop_cons (p : String) (rest : List String) (d : Bool) :
    JobQueue.pop ⟨p :: rest, d⟩ = PopResult.item p ⟨rest, d⟩ := by
  simp [JobQueue.pop]

/-- Pushes append in order. -/
theorem foldl_push : ∀ (l : List String) (q : List String) (d : Bool),
    List.foldl JobQueue.push ⟨q, d⟩ l = ⟨q ++ l, d⟩ := by
  intro l
  induction l with
  | nil => intro q d; simp
  | cons p rest ih => intro q d; simp [JobQueue.push, ih]

/-- Draining a closed queue yields its content, front first. -/
theorem drainLoop_closed : ∀ l : List String,
    drainLoop l.length ⟨l, true⟩ = l := by
  intro l
  induction l with
  | nil => simp [drainLoop]
  | cons p rest ih => simp [drainLoop, pop_cons, ih]

/-- The worker loop over a closed queue processes every job in order and
collects exactly the successful records. -/
theorem workerLoop_append (env : String → FileInfo) :
    ∀ (jobs : List String) (acc : List Record),
      workerLoop jobs.length env ⟨jobs, true⟩ acc =
        acc ++ jobs.filterMap (fun p => processPath p (env p)) := by
  intro jobs
  induction jobs with
  | nil => intro acc; simp [workerLoop]
  | cons j rest ih =>
    intro acc
    simp only [List.length_cons, workerLoop, pop_cons]
    cases hp : processPath j (env j) with
    | none => simp [ih, hp, List.filterMap_cons]
    | some r => simp [ih, hp, List.filterMap_cons]

/-- `runWorker` is the in-order filter-map of per-path processing. -/
theorem runWorker_eq (env : String → FileInfo) (jobs : List String) :
    runWorker env jobs = jobs.filterMap (fun p => processPath p (env p)) := by
  simpa [runWorker] using workerLoop_append env jobs []

/-! ### Claim theorems -/

set_option maxRecDepth 100000

/-- C1 (code bug): the program's digest does not match the published
SHA-256 standard for streams whose length is 56 mod 64. `spec_sha256`
processes every block of the standard padded message and reproduces the
published reference vectors for the empty stream and for "abc"; on the
56-byte stream of `0x61` bytes the standard digest is `b35439a4…`, while
the program's `final` compresses only the first 64 bytes of its 128-byte
padded buffer — the block carrying the bit length is dropped — and yields
`97539b85…`. -/
theorem C1_digest_diverges_from_standard :
    spec_sha256 [] =
      "e3b0c44298fc1c149afbf4c8996fb92427ae41e4649b934ca495991b7852b855" ∧
    spec_sha256 [97, 98, 99] =
      "ba7816bf8f01cfea414140de5dae2223b00361a396177a9cb410ff61f20015ad" ∧
    spec_sha256 (List.replicate 56 97) =
      "b35439a4ac6f0948b6d6f9e3c6af0f5f590ce20f1bde7090ef7970686ec6738a" ∧
    sha256hex (List.replicate 56 97) =
      "97539b851c7ee50b0b226ec54b1f3dbbe4f116c6e49b2dd031444d1e25354f3a" ∧
    sha256hex (List.replicate 56 97) ≠ spec_sha256 (List.replicate 56 97) :=
  ⟨by decide, by decide, by decide, by decide, by decide⟩

/-- C2 counterexample: the claim says a path whose byte stream cannot be
read gets no Record; but when the metadata reads succeed and only the
stream open fails, the worker appends a Record whose hash is the empty
string, which is not a 64-character digest. -/
theorem C2_counterexample :
    processPath "dir/f.txt" ⟨some 100, some 5, none⟩ =
      some ⟨"f.txt", "dir/f.txt", 100, 5, ""⟩ ∧
    ("" : String).length ≠ 64 :=
  ⟨rfl, by decide⟩

/-- C2 amended: a Record for a path exists iff both metadata reads (size,
mtime) succeeded; a metadata failure produces no Record; when the stream
also opened the hash is a 64-character digest, and when the stream could
not be opened the appended Record carries the empty-string hash; the
worker loop processes every job of a closed queue, so no failure
terminates the run. -/
theorem C2_record_iff_metadata :
    (∀ (p : String) (sz mt : Nat) (c : Option (List Nat)),
      processPath p ⟨some sz, some mt, c⟩ =
        some ⟨basename p, p, sz, mt, hashFile ⟨some sz, some mt, c⟩⟩) ∧
    (∀ (p : String) (mt : Option Nat) (c : Option (List Nat)),
      processPath p ⟨none, mt, c⟩ = none) ∧
    (∀ (p : String) (sz : Nat) (c : Option (List Nat)),
      processPath p ⟨some sz, none, c⟩ = none) ∧
    (∀ sz mt : Option Nat, hashFile ⟨sz, mt, none⟩ = "") ∧
    (∀ (sz mt : Option Nat) (bs : List Nat),
      (hashFile ⟨sz, mt, some bs⟩).length = 64) ∧
    (∀ (env : String → FileInfo) (jobs : List String),
      runWorker env jobs = jobs.filterMap fun p => processPath p (env p)) := by
  refine ⟨fun p sz mt c => rfl, fun p mt c => rfl, fun p sz c => rfl,
    fun sz mt => rfl, fun sz mt bs => sha256hex_length bs, runWorker_eq⟩

/-- C3 (code bug): an unreadable subdirectory makes the traversal throw an
uncaught `filesystem_error`, terminating the whole run: with an unreadable
`locked` subtree present, `indexDirectory` produces no records at all —
not even for the readable `a.txt` outside that subtree — whereas the same
file is collected when the unreadable subtree is absent. -/
theorem C3_unreadable_subtree_fatal :
    indexDirectory (fun _ => ⟨some 3, some 0, none⟩)
      (.dir "root" true [.reg "a.txt", .dir "locked" false [.reg "b.txt"]]) =
      .error "locked" ∧
    indexDirectory (fun _ => ⟨some 3, some 0, none⟩)
      (.dir "root" true [.reg "a.txt"]) =
      .ok [⟨"a.txt", "a.txt", 3, 0, ""⟩] :=
  ⟨rfl, rfl⟩

/-- C4: the program's digest of the empty stream and of the stream "abc"
are exactly the two published reference vectors. -/
theorem C4_reference_vectors :
    sha256hex [] =
      "e3b0c44298fc1c149afbf4c8996fb92427ae41e4649b934ca495991b7852b855" ∧
    sha256hex [97, 98, 99] =
      "ba7816bf8f01cfea414140de5dae2223b00361a396177a9cb410ff61f20015ad" :=
  ⟨by decide, by decide⟩

/-- C5 (code bug): only `argc < 3` exits with code 1; a `find` or
`checksum` invocation missing its third operand passes that check, runs
the whole indexing phase, and then reads `argv[3]` past the argument
array — undefined behaviour, not a clean exit code 1 before indexing.
Shown on concrete runs: two arguments exit 1 with the usage text; a
well-formed `index` run exits 0; `find`/`checksum` with a root but no
third operand reach the out-of-bounds `argv[3]` read. -/
theorem C5_argcheck_incomplete :
    mainFn ["prog", "find"] (fun _ => ⟨some 1, some 0, none⟩)
      (.dir "root" true [.reg "f"]) = .ok (1, usage) ∧
    mainFn ["prog", "index", "root"] (fun _ => ⟨some 1, some 0, none⟩)
      (.dir "root" true [.reg "f"]) = .ok (0, []) ∧
    mainFn ["prog", "find", "root"] (fun _ => ⟨some 1, some 0, none⟩)
      (.dir "root" true [.reg "f"]) =
      .error "argv[3] is past the argument array" ∧
    mainFn ["prog", "checksum", "root"] (fun _ => ⟨some 1, some 0, none⟩)
      (.dir "root" true [.reg "f"]) =
      .error "argv[3] is past the argument array" :=
  ⟨rfl, rfl, rfl, rfl⟩

/-- C6: `pop` on a non-empty queue delivers the front item whatever the
done flag (so a closed queue is drained); `pop` yields the closed signal
exactly when the queue is empty and `done` was called; and draining after
an arbitrary push sequence delivers every pushed item exactly once, in
order — nothing dropped, nothing duplicated. -/
theorem C6_queue_exactly_once (l rest : List String) (p : String)
    (d : Bool) (jq : JobQueue) :
    JobQueue.pop ⟨p :: rest, d⟩ = PopResult.item p ⟨rest, d⟩ ∧
    (JobQueue.pop jq = PopResult.closed ↔ jq.q = [] ∧ jq.done_ = true) ∧
    drainAll (JobQueue.done (List.foldl JobQueue.push ⟨[], false⟩ l)) = l := by
  refine ⟨pop_cons p rest d, ?_, ?_⟩
  · obtain ⟨q, d'⟩ := jq
    cases q <;> cases d' <;> simp [JobQueue.pop]
  · rw [foldl_push]
    simpa [JobQueue.done, drainAll] using drainLoop_closed l

/-- C7 counterexample: the threshold is computed in wrapping `uint64`
arithmetic, so for `minMB = 2^44` the computed threshold is 0 and a
1-byte record is emitted, although its size does not exceed
`minMB × 1,048,576 = 2^64`. -/
theorem C7_counterexample :
    queryFind [⟨"f", "f", 1, 0, ""⟩] 17592186044416 = ["f 1"] ∧
    ¬ (17592186044416 * 1048576 < 1) :=
  ⟨rfl, by decide⟩

/-- C7 amended: for every threshold below 2^44 MB (no `uint64` overflow in
`minMB * 1024 * 1024`), `queryFind` emits exactly the records whose size
strictly exceeds `minMB × 1,048,576`, one `path size` line per match in
store order; equality of sizes is not emitted. -/
theorem C7_find_threshold (records : List Record) (minMB : Nat)
    (h : minMB < 17592186044416) :
    queryFind records minMB = findAbove records minMB := by
  have he : minMB * 1024 * 1024 % 18446744073709551616 = minMB * 1048576 := by
    have h1 : minMB * 1024 * 1024 = minMB * 1048576 := by ring
    rw [h1, Nat.mod_eq_of_lt (by omega)]
  simp only [queryFind, findAbove, he]

/-- C7 witness: a concrete instantiation of the amended claim. -/
theorem C7_find_threshold_witness :
    5 < 17592186044416 ∧
    queryFind [⟨"f", "f", 9000000, 0, ""⟩] 5 =
      findAbove [⟨"f", "f", 9000000, 0, ""⟩] 5 :=
  ⟨by decide, C7_find_threshold [⟨"f", "f", 9000000, 0, ""⟩] 5 (by decide)⟩

/-- C8: `queryChecksum` prints the hash of the first record in store order
whose filename matches exactly — records before the first match never
match, records after it (including duplicates of the basename) are
ignored — and with no match at all it prints the literal line
"File not found". -/
theorem C8_first_match (pre post : List Record) (r : Record) (fn : String)
    (hpre : ∀ r2 ∈ pre, r2.filename ≠ fn) (hr : r.filename = fn) :
    queryChecksum (pre ++ r :: post) fn = [r.hash] ∧
    ∀ recs : List Record, (∀ r2 ∈ recs, r2.filename ≠ fn) →
      queryChecksum recs fn = ["File not found"] := by
  constructor
  · induction pre with
    | nil => simp [queryChecksum, hr]
    | cons r0 rs ih =>
      have h0 : r0.filename ≠ fn := hpre r0 (by simp)
      simp only [List.cons_append, queryChecksum, if_neg h0]
      exact ih fun r2 hm => hpre r2 (by simp [hm])
  · intro recs
    induction recs with
    | nil => intro _; rfl
    | cons r0 rs ih =>
      intro hall
      have h0 : r0.filename ≠ fn := hall r0 (by simp)
      simp only [queryChecksum, if_neg h0]
      exact ih fun r2 hm => hall r2 (by simp [hm])

/-- C8 witness: with two records named "a", the first one's hash is
printed; an unmatched name prints the literal not-found line. -/
theorem C8_first_match_witness :
    queryChecksum [⟨"other", "p0", 1, 0, "h0"⟩, ⟨"a", "p1", 2, 0, "h1"⟩,
      ⟨"a", "p2", 3, 0, "h2"⟩] "a" = ["h1"] ∧
    queryChecksum [⟨"other", "p0", 1, 0, "h0"⟩] "a" = ["File not found"] := by
  have h := C8_first_match [⟨"other", "p0", 1, 0, "h0"⟩]
    [⟨"a", "p2", 3, 0, "h2"⟩] ⟨"a", "p1", 2, 0, "h1"⟩ "a"
    (by intro r2 hm; simp at hm; simp [hm]) rfl
  exact ⟨h.1, h.2 [⟨"other", "p0", 1, 0, "h0"⟩]
    (by intro r2 hm; simp at hm; simp [hm])⟩

/-- C9: `final` performs exactly the claimed steps: the compressed buffer
is the object's buffer followed by one `0x80` byte, then zeros up to the
next 56-mod-64 boundary, then the bit length as an 8-byte big-endian
field; one compression pass runs over that buffer and the eight words are
rendered as a 64-character string of lowercase hexadecimal digits. -/
theorem C9_finalize_steps (h : Hash8) (buf : List Nat) (bl : Nat) :
    final ⟨h, buf, bl⟩ =
      render (transform (buf ++ [128] ++
        List.replicate ((120 - (buf.length + 1) % 64) % 64) 0 ++
        beBytes8 bl) h) ∧
    (buf.length + 1 + (120 - (buf.length + 1) % 64) % 64) % 64 = 56 ∧
    (beBytes8 bl).length = 8 ∧
    (final ⟨h, buf, bl⟩).length = 64 ∧
    (final ⟨h, buf, bl⟩).toList.all (fun c => hexDigits.contains c) = true := by
  refine ⟨?_, by omega, rfl, final_length _, ?_⟩
  · simp only [final, padTo56_eq, lenBytes_eq_beBytes8, List.length_append,
      List.length_singleton, List.append_assoc]
  · simp only [final]
    exact render_chars _

/-- C10: the regular-file test of the traversal follows symlinks: a
symlink whose target resolves to a regular file is enqueued (and, through
the worker, produces a Record), while entries that do not resolve to
regular files — directories, symlinks to directories, broken symlinks,
special files — are excluded. -/
theorem C10_symlink_to_regular_indexed (n m : String) (t : FType)
    (b : Bool) (cs : List Node) :
    scanNode (.sym n t) = .ok (if t = FType.regular then [n] else []) ∧
    scanNode (.reg n) = .ok [n] ∧
    scanNode (.special n) = .ok [] ∧
    (isRegularFile (.dir m b cs) = false) ∧
    indexDirectory (fun _ => ⟨some 3, some 7, some [97, 98, 99]⟩)
      (.dir "r" true [.sym "link" FType.regular, .sym "d" FType.directory,
        .sym "dead" FType.broken, .special "dev0"]) =
      .ok [⟨"link", "link", 3, 7,
        "ba7816bf8f01cfea414140de5dae2223b00361a396177a9cb410ff61f20015ad"⟩] := by
  refine ⟨?_, rfl, rfl, rfl, rfl⟩
  cases t <;> rfl

end Indexer
